import Mathlib

/-!
Verification of the moztrap list-action dispatcher, finder column
derivation, and test-cycles view, as a shallow embedding in Lean.
-/

set_option maxHeartbeats 1000000

namespace Moztrap

/-- A user attached to a request; `hasPerm` models Django's `user.has_perm`. -/
structure AuthUser where
  hasPerm : String → Bool

/-- An HTTP request as the dispatcher observes it: the `method`, the ordered
POST fields, `fullPath` (the request path including its query string, i.e. the
value of `request.get_full_path()`), the requesting principal's authorization
context `auth` (`request.auth`), whether the request arrived via the AJAX
transport (`request.is_ajax()`), and the optional authenticated user. -/
structure Request where
  method : String
  post : List (String × String)
  fullPath : String
  auth : String
  ajax : Bool
  user : Option AuthUser

/-- Outcome of invoking an action method on a record: normal return, the domain
`Conflict` error (carrying its message), or any other exception. -/
inductive ActionOutcome where
  | ok : ActionOutcome
  | conflict : String → ActionOutcome
  | raised : String → ActionOutcome
deriving DecidableEq

/-- The record-collection collaborator of the dispatcher: `get_by_id` resolves
an id under an authorization context (`none` models the NotFound exception),
`invoke` is `getattr(obj, action)()`, `objRepr` is `unicode(obj)`, and
`error_message` stands for `tcmui.core.errors.error_message`, a collaborator
module that builds a user-visible message from an error and a record's string
representation. -/
structure ListModel (Rec : Type) where
  get_by_id : String → String → Option Rec
  invoke : Rec → String → ActionOutcome
  objRepr : Rec → String
  error_message : String → String → String

/-- The HTTP-level response of a dispatch: a 302 redirect with its Location,
a 403 Forbidden, or the wrapped view's own response (status 200). -/
inductive Response (V : Type) where
  | redirect : String → Response V
  | forbidden : Response V
  | handler : V → Response V
deriving DecidableEq

/-- What a single dispatch produced: the response (`Except.error` models an
uncaught exception propagating out of the dispatcher), plus observation
traces: the (id, auth) argument pairs of each record lookup, the
(record, method name) of each action invocation, and the error messages
appended to the request's message queue. -/
structure DispatchResult (Rec V : Type) where
  response : Except String (Response V)
  lookups : List (String × String)
  invocations : List (Rec × String)
  messages : List String

/-- The test `k.startswith("action-")` on a POST key, computed on the
character data of the strings. -/
def startsWithAction (k : String) : Bool :=
  "action-".data.isPrefixOf k.data

/-- The POST fields whose key starts with the "action-" marker, in order:
the list comprehension over `request.POST.iteritems()`. -/
def postActions (request : Request) : List (String × String) :=
  request.post.filter (fun kv => startsWithAction kv.1)

/-- Strip the "action-" marker from a key: `action[len("action-"):]`,
computed on the character data of the key. -/
def actionName (k : String) : String :=
  String.mk (k.data.drop "action-".length)

/-- `tcmui.manage.decorators.handle_actions`, the list-action view decorator in
src, applied to a view and a request: on POST, take the first "action-" field;
if its stripped name is in `allowed_actions`, resolve the record by id under
`request.auth` and call the named method on it with no arguments, turning a
`Conflict` into one queued error message (the action still counts as taken);
redirect to `request.get_full_path()` when an action was taken or
`fall_through` is false; otherwise call the wrapped view on the unmodified
request. A failed lookup or any non-Conflict exception propagates uncaught. -/
def handle_actions {Rec V : Type} (m : ListModel Rec)
    (allowed_actions : List String) (fall_through : Bool)
    (view_func : Request → V) (request : Request) : DispatchResult Rec V :=
  if request.method = "POST" then
    match postActions request with
    | (k, obj_id) :: _ =>
      if actionName k ∈ allowed_actions then
        match m.get_by_id obj_id request.auth with
        | some obj =>
          match m.invoke obj (actionName k) with
          | ActionOutcome.ok =>
            ⟨Except.ok (Response.redirect request.fullPath),
             [(obj_id, request.auth)], [(obj, actionName k)], []⟩
          | ActionOutcome.conflict e =>
            ⟨Except.ok (Response.redirect request.fullPath),
             [(obj_id, request.auth)], [(obj, actionName k)],
             [m.error_message e (m.objRepr obj)]⟩
          | ActionOutcome.raised e =>
            ⟨Except.error e,
             [(obj_id, request.auth)], [(obj, actionName k)], []⟩
        | none =>
          ⟨Except.error "NotFound", [(obj_id, request.auth)], [], []⟩
      else
        if fall_through then
          ⟨Except.ok (Response.handler (view_func request)), [], [], []⟩
        else
          ⟨Except.ok (Response.redirect request.fullPath), [], [], []⟩
    | [] =>
      if fall_through then
        ⟨Except.ok (Response.handler (view_func request)), [], [], []⟩
      else
        ⟨Except.ok (Response.redirect request.fullPath), [], [], []⟩
  else
    ⟨Except.ok (Response.handler (view_func request)), [], [], []⟩

/-- Modelled from the spec: the permission gate of the newer list-actions
dispatcher `cc.view.lists.actions.actions`, whose code is not under src (only
its tests are). The gate trips exactly when `request.user` is set, a
permission string was supplied, and the user lacks that permission. -/
def permissionDenied (request : Request) (permission : Option String) : Bool :=
  match request.user, permission with
  | some u, some p => ! u.hasPerm p
  | _, _ => false

/-- Trace of the action-processing stage of the dispatcher: whether an action
was taken, an uncaught exception if one was raised, and the lookup,
invocation and message traces. -/
structure ActionProcessing (Rec : Type) where
  taken : Bool
  exc : Option String
  lookups : List (String × String)
  invocations : List (Rec × String)
  messages : List String

/-- Modelled from the spec: steps 3-6 of the dispatcher contract of
`cc.view.lists.actions.actions` (code not under src; only its tests are).
Collect the "action-" fields, take the first, strip the marker, and proceed
only for an allowed name; resolve the record by id under the request's auth
context, treating a NotFound lookup failure as if no action was found; invoke
the named method with no arguments, converting a Conflict into one queued
message with the action still counted as taken; any other exception
propagates. -/
def processPostActions {Rec : Type} (m : ListModel Rec)
    (allowed : List String) (request : Request) : ActionProcessing Rec :=
  match postActions request with
  | [] => ⟨false, none, [], [], []⟩
  | (k, obj_id) :: _ =>
    if actionName k ∈ allowed then
      match m.get_by_id obj_id request.auth with
      | none => ⟨false, none, [(obj_id, request.auth)], [], []⟩
      | some obj =>
        match m.invoke obj (actionName k) with
        | ActionOutcome.ok =>
          ⟨true, none, [(obj_id, request.auth)], [(obj, actionName k)], []⟩
        | ActionOutcome.conflict e =>
          ⟨true, none, [(obj_id, request.auth)], [(obj, actionName k)],
           [m.error_message e (m.objRepr obj)]⟩
        | ActionOutcome.raised e =>
          ⟨true, some e, [(obj_id, request.auth)], [(obj, actionName k)], []⟩
    else ⟨false, none, [], [], []⟩

/-- Modelled from the spec: the full dispatcher `cc.view.lists.actions.actions`
(code not under src; only its tests are), applied to a view and a request:
the permission gate runs first and short-circuits with 403; a non-POST request
passes through untouched; then action processing (steps 3-6); then the
response decision: if an action was taken or `fall_through` is false, redirect
to the full path — unless the request arrived via AJAX, in which case the
wrapped view runs on the request with its method coerced to GET and its POST
payload cleared; otherwise the wrapped view runs on the unmodified request. -/
def actions {Rec V : Type} (m : ListModel Rec) (allowed : List String)
    (fall_through : Bool) (permission : Option String)
    (view_func : Request → V) (request : Request) : DispatchResult Rec V :=
  if permissionDenied request permission then
    ⟨Except.ok Response.forbidden, [], [], []⟩
  else if request.method = "POST" then
    let pr := processPostActions m allowed request
    match pr.exc with
    | some e => ⟨Except.error e, pr.lookups, pr.invocations, pr.messages⟩
    | none =>
      if pr.taken || ! fall_through then
        if request.ajax then
          ⟨Except.ok (Response.handler
              (view_func { request with method := "GET", post := [] })),
           pr.lookups, pr.invocations, pr.messages⟩
        else
          ⟨Except.ok (Response.redirect request.fullPath),
           pr.lookups, pr.invocations, pr.messages⟩
      else
        ⟨Except.ok (Response.handler (view_func request)),
         pr.lookups, pr.invocations, pr.messages⟩
  else
    ⟨Except.ok (Response.handler (view_func request)), [], [], []⟩

/-- True exactly on a response that is not an uncaught exception. -/
def isOkResponse {V : Type} : Except String (Response V) → Bool
  | Except.ok _ => true
  | Except.error _ => false

/-- Modelled from the spec: a Finder `Column` declaration
(`cc.view.lists.finder` is not under src; only its tests are): a name, a
display template, the name of the link field pointing at the parent record,
and an optional goto target. The queryset collaborator is external and plays
no part in column adjacency. -/
structure Column where
  name : String
  template : String
  link_field : Option String
  goto : Option String
deriving DecidableEq

/-- Modelled from the spec: the Finder's `parent_columns` mapping — declaration
order defines adjacency, so each column after the first maps its name to the
immediately preceding column. -/
def parent_columns (columns : List Column) : List (String × Column) :=
  (columns.zip columns.tail).map (fun pc => (pc.2.name, pc.1))

/-- Modelled from the spec: the Finder's `child_columns` mapping — each column
before the last maps its name to the immediately following column. -/
def child_columns (columns : List Column) : List (String × Column) :=
  (columns.zip columns.tail).map (fun pc => (pc.1.name, pc.2))

/-- A test cycle, with the fields the cycles view filters on
(`productId`, `testCycleStatusId`) and an id distinguishing cycles. -/
structure TestCycle where
  id : String
  productId : String
  testCycleStatusId : Nat
deriving DecidableEq

/-- The external collaborators of the cycles view, abstract because they are
not under src: `Product.get` (resource url and auth context to a product),
`TestCycleList.get` (auth context to the full remote test-cycle list), and the
static status id `testcyclestatus.ACTIVE`. -/
structure TestExecutionEnv (P : Type) where
  productGet : String → String → P
  testCycleListGet : String → List TestCycle
  ACTIVE : Nat

/-- Modelled from the spec: `ListObject.filter` of the tcmui core (not under
src) keeps exactly the members matching every field criterion; the cycles
view filters on `productId` and `testCycleStatusId`. -/
def filterCycles (cyclesList : List TestCycle) (productId : String)
    (statusId : Nat) : List TestCycle :=
  cyclesList.filter
    (fun c => c.productId == productId && c.testCycleStatusId == statusId)

/-- The rendered response of the cycles view: the `TemplateResponse` holding
the request, the template name, and the context entries. -/
structure CyclesResponse (P : Type) where
  request : Request
  template : String
  product : P
  cycles : List TestCycle

/-- `tcmui.testexecution.views.cycles` (the view body inside the external
`login_required` framework decorator): fetch the product at
"products/<product_id>" under `request.auth`, fetch the test-cycle list under
`request.auth` and filter it to the given product id and the ACTIVE status,
and render "test/cycles.html" with both in the context. -/
def cycles {P : Type} (env : TestExecutionEnv P) (request : Request)
    (product_id : String) : CyclesResponse P :=
  { request := request
    template := "test/cycles.html"
    product := env.productGet ("products/" ++ product_id) request.auth
    cycles := filterCycles (env.testCycleListGet request.auth) product_id
      env.ACTIVE }

/-! Concrete fixtures used by the witness theorems. -/

/-- A record collection over string records: id "3" under auth "creds"
resolves to "record3"; the "doit" action succeeds. -/
def wModel : ListModel String :=
  { get_by_id := fun i a =>
      if i = "3" && a = "creds" then some "record3" else none
    invoke := fun _ a =>
      if a = "doit" then ActionOutcome.ok else ActionOutcome.raised "boom"
    objRepr := fun r => r
    error_message := fun e r => e ++ " " ++ r }

/-- A record collection whose "doit" action raises the domain Conflict. -/
def wConflictModel : ListModel String :=
  { get_by_id := fun i a =>
      if i = "3" && a = "creds" then some "record3" else none
    invoke := fun _ a =>
      if a = "doit" then ActionOutcome.conflict "boom" else ActionOutcome.ok
    objRepr := fun r => r
    error_message := fun e r => e ++ " " ++ r }

/-- A record collection whose lookups always signal NotFound. -/
def wEmptyModel : ListModel String :=
  { get_by_id := fun _ _ => none
    invoke := fun _ _ => ActionOutcome.ok
    objRepr := fun r => r
    error_message := fun e r => e ++ " " ++ r }

/-- POST /the/url?filter=value with payload action-doit=3, not AJAX,
no authenticated user. -/
def wReq : Request :=
  { method := "POST"
    post := [("action-doit", "3")]
    fullPath := "/the/url?filter=value"
    auth := "creds"
    ajax := false
    user := none }

/-! Claim theorems. -/

/-- C1: on a POST whose first "action-" field is the key "action-<name>" with
value <id>, with <name> in the allowed actions, and whose lookup and
invocation succeed, `handle_actions` looks the record up exactly once by <id>
under the requesting principal's authorization context, invokes the method
named <name> exactly once on the returned record, and responds with a 302
redirect to the original request path including its query string. -/
theorem handle_actions_recognized_action {Rec V : Type} (m : ListModel Rec)
    (allowed : List String) (fall_through : Bool) (view_func : Request → V)
    (request : Request) (k obj_id name : String)
    (rest : List (String × String)) (obj : Rec)
    (hm : request.method = "POST")
    (ha : postActions request = (k, obj_id) :: rest)
    (hn : actionName k = name)
    (hallow : name ∈ allowed)
    (hget : m.get_by_id obj_id request.auth = some obj)
    (hinv : m.invoke obj name = ActionOutcome.ok) :
    handle_actions m allowed fall_through view_func request =
      ⟨Except.ok (Response.redirect request.fullPath),
       [(obj_id, request.auth)], [(obj, name)], []⟩ := by
  simp [handle_actions, hm, ha, hn, hallow, hget, hinv]

/-- C1 witness: POST /the/url?filter=value with action-doit=3 and "doit"
allowed redirects 302 to /the/url?filter=value after exactly one lookup of
id "3" under auth "creds" and exactly one invocation of "doit" on the
resolved record. -/
theorem handle_actions_recognized_action_witness :
    handle_actions wModel ["doit"] false (fun r => r.fullPath) wReq =
      ⟨Except.ok (Response.redirect "/the/url?filter=value"),
       [("3", "creds")], [("record3", "doit")], []⟩ :=
  handle_actions_recognized_action wModel ["doit"] false (fun r => r.fullPath)
    wReq "action-doit" "3" "doit" [] "record3"
    rfl rfl rfl (by decide) rfl rfl

/-- POST /the/url?filter=value whose only action field has the unknown name
"bad". -/
def wBadActionReq : Request :=
  { wReq with post := [("action-bad", "3")] }

/-- POST /the/url?filter=value with no "action-" field at all, only
other=thing. -/
def wOtherReq : Request :=
  { wReq with post := [("other", "thing")] }

/-- GET /the/url?filter=value whose payload still carries action-doit=3. -/
def wGetReq : Request :=
  { wReq with method := "GET" }

/-- C5: when the recognized action's invocation raises the domain Conflict,
`handle_actions` appends exactly one message built by `error_message` from the
conflict and the record's string representation, still redirects (the action
counts as taken), and does not re-raise; when the invocation raises any other
exception, that exception propagates uncaught. -/
theorem handle_actions_conflict_handled_others_propagate {Rec V : Type}
    (m : ListModel Rec) (allowed : List String) (fall_through : Bool)
    (view_func : Request → V) (request : Request) (k obj_id name : String)
    (rest : List (String × String)) (obj : Rec)
    (hm : request.method = "POST")
    (ha : postActions request = (k, obj_id) :: rest)
    (hn : actionName k = name)
    (hallow : name ∈ allowed)
    (hget : m.get_by_id obj_id request.auth = some obj) :
    (match m.invoke obj name with
     | ActionOutcome.ok => True
     | ActionOutcome.conflict e =>
         (handle_actions m allowed fall_through view_func request).messages =
           [m.error_message e (m.objRepr obj)] ∧
         (handle_actions m allowed fall_through view_func request).response =
           Except.ok (Response.redirect request.fullPath)
     | ActionOutcome.raised e =>
         (handle_actions m allowed fall_through view_func request).response =
           Except.error e) := by
  cases hinv : m.invoke obj name with
  | ok => trivial
  | conflict e =>
    constructor
    · simp [handle_actions, hm, ha, hn, hallow, hget, hinv]
    · simp [handle_actions, hm, ha, hn, hallow, hget, hinv]
  | raised e =>
    simp [handle_actions, hm, ha, hn, hallow, hget, hinv]

/-- C5 witness: with a model whose "doit" raises Conflict "boom" on record
"record3", the dispatcher queues exactly the message "boom record3" and still
redirects 302 to the original path and query string. -/
theorem handle_actions_conflict_handled_others_propagate_witness :
    (handle_actions wConflictModel ["doit"] false (fun r => r.fullPath)
        wReq).messages = ["boom record3"] ∧
    (handle_actions wConflictModel ["doit"] false (fun r => r.fullPath)
        wReq).response =
      Except.ok (Response.redirect "/the/url?filter=value") :=
  handle_actions_conflict_handled_others_propagate wConflictModel ["doit"]
    false (fun r => r.fullPath) wReq "action-doit" "3" "doit" [] "record3"
    rfl rfl rfl (by decide) rfl

/-- C6: on a non-AJAX POST with `fall_through` false, whether the payload has
no "action-" field at all or its first "action-" field carries a name outside
the allowed actions, `handle_actions` responds with a redirect to the original
path plus query string and performs no lookup and no invocation — the
unknown-name case yields exactly the same result as the no-action case. -/
theorem handle_actions_no_action_redirects {Rec V : Type} (m : ListModel Rec)
    (allowed : List String) (view_func : Request → V) (request : Request)
    (hm : request.method = "POST")
    (hno : postActions request = [] ∨
      ∃ k obj_id rest, postActions request = (k, obj_id) :: rest ∧
        actionName k ∉ allowed) :
    handle_actions m allowed false view_func request =
      ⟨Except.ok (Response.redirect request.fullPath), [], [], []⟩ := by
  rcases hno with h | ⟨k, obj_id, rest, h, hk⟩
  · simp [handle_actions, hm, h]
  · simp [handle_actions, hm, h, hk]

/-- C6 witness: POST with only action-bad=3 ("bad" not allowed) redirects 302
to /the/url?filter=value with empty lookup and invocation traces. -/
theorem handle_actions_no_action_redirects_witness :
    handle_actions wModel ["doit"] false (fun r => r.fullPath) wBadActionReq =
      ⟨Except.ok (Response.redirect "/the/url?filter=value"), [], [], []⟩ :=
  handle_actions_no_action_redirects wModel ["doit"] (fun r => r.fullPath)
    wBadActionReq rfl
    (Or.inr ⟨"action-bad", "3", [], by decide, by decide⟩)

/-- C7: on a POST with no recognized "action-" field, when `fall_through` is
true, `handle_actions` performs no lookup and no invocation and passes the
request to the wrapped view completely unmodified, responding with the view's
own response. -/
theorem handle_actions_fall_through_unmodified {Rec V : Type}
    (m : ListModel Rec) (allowed : List String) (view_func : Request → V)
    (request : Request)
    (hm : request.method = "POST")
    (hno : postActions request = [] ∨
      ∃ k obj_id rest, postActions request = (k, obj_id) :: rest ∧
        actionName k ∉ allowed) :
    handle_actions m allowed true view_func request =
      ⟨Except.ok (Response.handler (view_func request)), [], [], []⟩ := by
  rcases hno with h | ⟨k, obj_id, rest, h, hk⟩
  · simp [handle_actions, hm, h]
  · simp [handle_actions, hm, h, hk]

/-- C7 witness: with fall_through, a POST whose payload is other=thing reaches
the identity view unchanged — the observed request still has method POST and
the field other=thing — with no lookups and no invocations. -/
theorem handle_actions_fall_through_unmodified_witness :
    handle_actions wModel ["doit"] true (fun r => r) wOtherReq =
      ⟨Except.ok (Response.handler wOtherReq), [], [], []⟩ ∧
    wOtherReq.method = "POST" ∧ wOtherReq.post = [("other", "thing")] :=
  ⟨handle_actions_fall_through_unmodified wModel ["doit"] (fun r => r)
    wOtherReq rfl (Or.inl (by decide)), rfl, rfl⟩

/-- C8: `handle_actions` passes every non-POST request through to the wrapped
view untouched, with no lookups, no invocations and no messages, regardless
of the payload — even one carrying "action-" fields. -/
theorem handle_actions_non_post_untouched {Rec V : Type} (m : ListModel Rec)
    (allowed : List String) (fall_through : Bool) (view_func : Request → V)
    (request : Request)
    (hm : request.method ≠ "POST") :
    handle_actions m allowed fall_through view_func request =
      ⟨Except.ok (Response.handler (view_func request)), [], [], []⟩ := by
  simp [handle_actions, hm]

/-- C8 witness: a GET whose payload still carries action-doit=3 reaches the
identity view untouched, with empty traces. -/
theorem handle_actions_non_post_untouched_witness :
    handle_actions wModel ["doit"] false (fun r => r) wGetReq =
      ⟨Except.ok (Response.handler wGetReq), [], [], []⟩ ∧
    wGetReq.post = [("action-doit", "3")] :=
  ⟨handle_actions_non_post_untouched wModel ["doit"] false (fun r => r)
    wGetReq (by decide), rfl⟩

/-- POST /the/url?filter=value with action-doit=3 from a user who lacks every
permission. -/
def wNoPermReq : Request :=
  { wReq with user := some ⟨fun _ => false⟩ }

/-- POST /the/url?filter=value with action-doit=3 sent via the AJAX
transport. -/
def wAjaxReq : Request :=
  { wReq with ajax := true }

/-- C2: on a POST carrying a valid action, a dispatcher constructed with a
permission string responds Forbidden immediately when `request.user` is set
and lacks that permission — with no lookup, no invocation, no message, and
without calling the wrapped view. -/
theorem actions_no_permission_forbidden {Rec V : Type} (m : ListModel Rec)
    (allowed : List String) (fall_through : Bool) (p : String)
    (view_func : Request → V) (request : Request) (u : AuthUser)
    (k obj_id name : String) (rest : List (String × String))
    (hu : request.user = some u)
    (hperm : u.hasPerm p = false)
    (hm : request.method = "POST")
    (ha : postActions request = (k, obj_id) :: rest)
    (hn : actionName k = name)
    (hallow : name ∈ allowed) :
    actions m allowed fall_through (some p) view_func request =
      ⟨Except.ok Response.forbidden, [], [], []⟩ := by
  simp [actions, permissionDenied, hu, hperm]

/-- C2 witness: the permissionless user's POST with action-doit=3 against a
dispatcher requiring "do_things" yields exactly the Forbidden result with
empty traces. -/
theorem actions_no_permission_forbidden_witness :
    actions wModel ["doit"] false (some "do_things") (fun r => r) wNoPermReq =
      ⟨Except.ok Response.forbidden, [], [], []⟩ :=
  actions_no_permission_forbidden wModel ["doit"] false "do_things"
    (fun r => r) wNoPermReq ⟨fun _ => false⟩ "action-doit" "3" "doit" []
    rfl rfl rfl rfl rfl (by decide)

/-- C3: on a POST where an action was taken or `fall_through` is false, an
AJAX request is not redirected: the dispatcher falls through to the wrapped
view, which observes the request with its method coerced to GET and its POST
payload cleared, and the response is the view's own. -/
theorem actions_ajax_falls_through_get_empty {Rec V : Type} (m : ListModel Rec)
    (allowed : List String) (fall_through : Bool) (permission : Option String)
    (view_func : Request → V) (request : Request)
    (hperm : permissionDenied request permission = false)
    (hm : request.method = "POST")
    (hajax : request.ajax = true)
    (hexc : (processPostActions m allowed request).exc = none)
    (htaken : (processPostActions m allowed request).taken = true ∨
      fall_through = false) :
    (actions m allowed fall_through permission view_func request).response =
      Except.ok (Response.handler
        (view_func { request with method := "GET", post := [] })) := by
  rcases htaken with h | h
  · simp [actions, hperm, hm, hajax, hexc, h]
  · simp [actions, hperm, hm, hajax, hexc, h]

/-- C3 witness: the AJAX POST with action-doit=3 reaches the identity view
with method GET and an empty POST payload — a 200 pass-through, not a
redirect. -/
theorem actions_ajax_falls_through_get_empty_witness :
    (actions wModel ["doit"] false none (fun r => r) wAjaxReq).response =
      Except.ok (Response.handler
        { wAjaxReq with method := "GET", post := [] }) :=
  actions_ajax_falls_through_get_empty wModel ["doit"] false none
    (fun r => r) wAjaxReq rfl rfl rfl rfl (Or.inr rfl)

/-- C4: on a POST with a recognized action name whose id lookup signals
NotFound, the dispatcher recovers locally: no record method is invoked, no
exception propagates, and the response is exactly the response of the same
dispatcher when no action is found (here: the same dispatcher with an empty
allowed-actions list). -/
theorem actions_not_found_as_no_action {Rec V : Type} (m : ListModel Rec)
    (allowed : List String) (fall_through : Bool) (permission : Option String)
    (view_func : Request → V) (request : Request) (k obj_id name : String)
    (rest : List (String × String))
    (hperm : permissionDenied request permission = false)
    (hm : request.method = "POST")
    (ha : postActions request = (k, obj_id) :: rest)
    (hn : actionName k = name)
    (hallow : name ∈ allowed)
    (hget : m.get_by_id obj_id request.auth = none) :
    (actions m allowed fall_through permission view_func request).invocations
        = [] ∧
    isOkResponse
        (actions m allowed fall_through permission view_func request).response
        = true ∧
    (actions m allowed fall_through permission view_func request).response =
      (actions m [] fall_through permission view_func request).response := by
  have h1 : processPostActions m allowed request =
      ⟨false, none, [(obj_id, request.auth)], [], []⟩ := by
    simp [processPostActions, ha, hn, hallow, hget]
  have h2 : processPostActions m [] request = ⟨false, none, [], [], []⟩ := by
    simp [processPostActions, ha]
  cases hft : fall_through <;> cases haj : request.ajax <;>
    simp [actions, hperm, hm, h1, h2, haj, isOkResponse]

/-- C4 witness: with a collection whose lookups all signal NotFound, the POST
with action-doit=3 invokes nothing, propagates nothing, and draws the same
response as the no-action case (a redirect, fall_through being false). -/
theorem actions_not_found_as_no_action_witness :
    (actions wEmptyModel ["doit"] false none (fun r => r) wReq).invocations
        = [] ∧
    isOkResponse
        (actions wEmptyModel ["doit"] false none (fun r => r) wReq).response
        = true ∧
    (actions wEmptyModel ["doit"] false none (fun r => r) wReq).response =
      (actions wEmptyModel [] false none (fun r => r) wReq).response :=
  actions_not_found_as_no_action wEmptyModel ["doit"] false none (fun r => r)
    wReq "action-doit" "3" "doit" [] rfl rfl rfl rfl (by decide) rfl

/-- C9: for a three-column declaration [top, mid, fin] with distinct names,
the derived parent mapping is exactly mid ↦ top, fin ↦ mid and the child
mapping exactly top ↦ mid, mid ↦ fin; the first column has no parent and the
last no child. -/
theorem finder_parent_child_columns (top mid fin : Column)
    (h1 : top.name ≠ mid.name) (h2 : mid.name ≠ fin.name)
    (h3 : top.name ≠ fin.name) :
    parent_columns [top, mid, fin] = [(mid.name, top), (fin.name, mid)] ∧
    child_columns [top, mid, fin] = [(top.name, mid), (mid.name, fin)] ∧
    (parent_columns [top, mid, fin]).lookup top.name = none ∧
    (child_columns [top, mid, fin]).lookup fin.name = none := by
  have e1 : (top.name == mid.name) = false := beq_eq_false_iff_ne.mpr h1
  have e2 : (top.name == fin.name) = false := beq_eq_false_iff_ne.mpr h3
  have e3 : (fin.name == top.name) = false :=
    beq_eq_false_iff_ne.mpr (Ne.symm h3)
  have e4 : (fin.name == mid.name) = false :=
    beq_eq_false_iff_ne.mpr (Ne.symm h2)
  refine ⟨rfl, rfl, ?_, ?_⟩
  · simp [parent_columns, List.lookup, e1, e2]
  · simp [child_columns, List.lookup, e3, e4]

/-- C9 witness: the declaration of the finder test — columns top, mid, fin —
derives parent mapping mid ↦ top, fin ↦ mid and child mapping top ↦ mid,
mid ↦ fin, with top parentless and fin childless. -/
theorem finder_parent_child_columns_witness :
    parent_columns
        [⟨"top", "_tops.html", some "theTop", some "list_of_mids"⟩,
         ⟨"mid", "_mids.html", some "theMid", none⟩,
         ⟨"fin", "_fins.html", some "theFin", none⟩] =
      [("mid", ⟨"top", "_tops.html", some "theTop", some "list_of_mids"⟩),
       ("fin", ⟨"mid", "_mids.html", some "theMid", none⟩)] ∧
    child_columns
        [⟨"top", "_tops.html", some "theTop", some "list_of_mids"⟩,
         ⟨"mid", "_mids.html", some "theMid", none⟩,
         ⟨"fin", "_fins.html", some "theFin", none⟩] =
      [("top", ⟨"mid", "_mids.html", some "theMid", none⟩),
       ("mid", ⟨"fin", "_fins.html", some "theFin", none⟩)] ∧
    (parent_columns
        [⟨"top", "_tops.html", some "theTop", some "list_of_mids"⟩,
         ⟨"mid", "_mids.html", some "theMid", none⟩,
         ⟨"fin", "_fins.html", some "theFin", none⟩]).lookup "top" = none ∧
    (child_columns
        [⟨"top", "_tops.html", some "theTop", some "list_of_mids"⟩,
         ⟨"mid", "_mids.html", some "theMid", none⟩,
         ⟨"fin", "_fins.html", some "theFin", none⟩]).lookup "fin" = none :=
  finder_parent_child_columns
    ⟨"top", "_tops.html", some "theTop", some "list_of_mids"⟩
    ⟨"mid", "_mids.html", some "theMid", none⟩
    ⟨"fin", "_fins.html", some "theFin", none⟩
    (by decide) (by decide) (by decide)

/-- C10: for every environment, request and product id, the cycles view
renders the "test/cycles.html" template, fetches the product at
"products/<product_id>" under `request.auth`, and lists exactly those members
of the test-cycle list fetched under `request.auth` whose productId equals
the given product id and whose testCycleStatusId equals the ACTIVE status. -/
theorem cycles_filters_active_cycles_of_product {P : Type}
    (env : TestExecutionEnv P) (request : Request) (product_id : String)
    (c : TestCycle) :
    (cycles env request product_id).template = "test/cycles.html" ∧
    (cycles env request product_id).product =
      env.productGet ("products/" ++ product_id) request.auth ∧
    (c ∈ (cycles env request product_id).cycles ↔
      c ∈ env.testCycleListGet request.auth ∧ c.productId = product_id ∧
        c.testCycleStatusId = env.ACTIVE) := by
  refine ⟨rfl, rfl, ?_⟩
  simp [cycles, filterCycles, List.mem_filter, and_assoc]

end Moztrap
